import Mathlib

/-!
Verification development for the climate-analysis-system repository.

The analytical core (CO₂-Gap Analyzer and Time-Lag Correlation Analyzer) is
specified in `spec.md`; the repository ships its documentation
(`docs/API_DOCUMENTATION.md`) and the React frontend, while the backend
service code itself is not part of the available sources.  The analyzer
operations below are therefore modelled from the specification text; the
frontend components (`TimeLagChart.tsx`, `CO2GapChartThin.tsx`) are embedded
directly from their TypeScript sources.  IEEE-754 doubles are idealised as
real numbers (frontend arithmetic, being exact on the inputs considered, is
idealised as rationals to stay decidable).
-/

/-- Error taxonomy of the core, from spec §7: `ValidationError` for
out-of-contract input, `ComputationError` for well-formed input with a
mathematically undefined result. -/
inductive AnalysisError where
  | validationError
  | computationError
deriving DecidableEq, Repr

/-- GapResult entity, from spec §3 and `docs/API_DOCUMENTATION.md`
(CO2GapAnalysis response shape).  `p_value` and `confidence_interval` are
optional: they are absent for single-point calculations (spec §4.1).  The
timestamp is pass-through plumbing and is not modelled. -/
structure GapResult where
  co2_ppm : ℝ
  theoretical_temp : ℝ
  actual_temp : ℝ
  unexplained_gap : ℝ
  gap_percentage : ℝ
  p_value : Option ℝ
  confidence_interval : Option (ℝ × ℝ)

/-- Modelled from the spec: the theoretical temperature model of §4.1,
`theoretical_temp = baseline_temp + λ · log2(co2_ppm / C₀)`, undefined
(ValidationError) for `co2_ppm ≤ 0`.  The backend service implementing it is
not among the available sources. -/
noncomputable def computeTheoreticalTemp (co2_ppm baseline_temp
    co2_reference_ppm sensitivity : ℝ) : Except AnalysisError ℝ :=
  if co2_ppm ≤ 0 then .error .validationError
  else .ok (baseline_temp + sensitivity * Real.logb 2 (co2_ppm / co2_reference_ppm))

/-- Modelled from the spec: the gap computation of §4.1 for one point:
`unexplained_gap = actual_temp - theoretical_temp`,
`total_warming = actual_temp - baseline_temp`,
`gap_percentage = (unexplained_gap / total_warming) · 100` when
`total_warming ≠ 0`, else `0`.  `p_value` and `confidence_interval` are left
absent here; only batch mode fills them in. -/
noncomputable def computeGapCore (baseline_temp co2_reference_ppm sensitivity
    co2_ppm actual_temp : ℝ) : Except AnalysisError GapResult :=
  match computeTheoreticalTemp co2_ppm baseline_temp co2_reference_ppm sensitivity with
  | .error e => .error e
  | .ok th =>
      let gap := actual_temp - th
      let total_warming := actual_temp - baseline_temp
      .ok { co2_ppm := co2_ppm
            theoretical_temp := th
            actual_temp := actual_temp
            unexplained_gap := gap
            gap_percentage := if total_warming = 0 then 0 else gap / total_warming * 100
            p_value := none
            confidence_interval := none }

/-- Modelled from the spec: `compute_single_gap(co2_ppm, actual_temp,
baseline_temp)` of §6 (spec defaults: baseline 14.0, C₀ 280.0, λ 3.0 are
passed explicitly).  Single-point mode reports `p_value` and
`confidence_interval` as absent (spec §4.1). -/
noncomputable def compute_single_gap (co2_ppm actual_temp baseline_temp
    co2_reference_ppm sensitivity : ℝ) : Except AnalysisError GapResult :=
  computeGapCore baseline_temp co2_reference_ppm sensitivity co2_ppm actual_temp

/-- Modelled from the spec: pointwise gap computation over a list of paired
`(co2_ppm, actual_temp)` observations, propagating the first error. -/
noncomputable def computeGapList (baseline_temp co2_reference_ppm sensitivity : ℝ) :
    List (ℝ × ℝ) → Except AnalysisError (List GapResult)
  | [] => .ok []
  | (c, t) :: rest =>
      match computeGapCore baseline_temp co2_reference_ppm sensitivity c t,
            computeGapList baseline_temp co2_reference_ppm sensitivity rest with
      | .ok g, .ok gs => .ok (g :: gs)
      | .error e, _ => .error e
      | .ok _, .error e => .error e

/-- Sample mean of a list of reals (spec §4.1, confidence estimation). -/
noncomputable def sampleMean (l : List ℝ) : ℝ := l.sum / l.length

/-- Sample standard deviation with `n - 1` degrees of freedom
(spec §4.1, confidence estimation). -/
noncomputable def sampleStd (l : List ℝ) : ℝ :=
  Real.sqrt ((l.map (fun g => (g - sampleMean l) ^ 2)).sum / ((l.length : ℝ) - 1))

/-- Centered sum of squares of a single series (used to phrase the
zero-variance condition of spec §4.2: a sub-series has zero variance exactly
when this vanishes). -/
noncomputable def sxxOf (s : List ℝ) : ℝ :=
  (s.map (fun a => (a - sampleMean s) ^ 2)).sum

/-- Modelled from the spec: batch `compute_co2_gap` of §6 with the confidence
estimation of §4.1.  The two input series are paired pointwise; an empty
series or a length-1 series is a ValidationError (spec §4.1 error
conditions).  The Student-t distribution itself is standard statistical
material external to the repository, so the two-tailed p-value map `pFromT`
(of the t statistic and `n-1` degrees of freedom) and the critical value
`tCrit` (of `n-1` degrees of freedom) are parameters of the model. -/
noncomputable def compute_co2_gap (tCrit : ℕ → ℝ) (pFromT : ℝ → ℕ → ℝ)
    (baseline_temp co2_reference_ppm sensitivity : ℝ)
    (co2_series temperature_series : List ℝ) :
    Except AnalysisError (List GapResult) :=
  let pairs := co2_series.zip temperature_series
  if pairs.length < 2 then .error .validationError
  else
    match computeGapList baseline_temp co2_reference_ppm sensitivity pairs with
    | .error e => .error e
    | .ok results =>
        let gaps := results.map (fun g => g.unexplained_gap)
        let n := gaps.length
        let m := sampleMean gaps
        let se := sampleStd gaps / Real.sqrt n
        let t := m / se
        let p := pFromT t (n - 1)
        let ci := (m - tCrit (n - 1) * se, m + tCrit (n - 1) * se)
        .ok (results.map (fun g =>
          { g with p_value := some p, confidence_interval := some ci }))


/-- LagCorrelationResult entity, from spec §3 and the `TimeLagData` interface
of `frontend/src/components/TimeLagChart.tsx` (lines 30-45). -/
structure LagCorrelationResult where
  optimal_lag_months : ℕ
  correlation_coefficient : ℝ
  correlation_strength : String
  aligned_series : List (ℝ × ℝ)

/-- Mean of the first components of a list of paired values. -/
noncomputable def meanFst (ps : List (ℝ × ℝ)) : ℝ :=
  (ps.map Prod.fst).sum / ps.length

/-- Mean of the second components of a list of paired values. -/
noncomputable def meanSnd (ps : List (ℝ × ℝ)) : ℝ :=
  (ps.map Prod.snd).sum / ps.length

/-- Centered sum of squares of the first components. -/
noncomputable def sxx (ps : List (ℝ × ℝ)) : ℝ :=
  (ps.map (fun p => (p.1 - meanFst ps) ^ 2)).sum

/-- Centered sum of squares of the second components. -/
noncomputable def syy (ps : List (ℝ × ℝ)) : ℝ :=
  (ps.map (fun p => (p.2 - meanSnd ps) ^ 2)).sum

/-- Centered sum of cross products. -/
noncomputable def sxy (ps : List (ℝ × ℝ)) : ℝ :=
  (ps.map (fun p => (p.1 - meanFst ps) * (p.2 - meanSnd ps))).sum

/-- Modelled from the spec: Pearson correlation coefficient over a list of
paired values (spec §4.2 step 3).  When either paired sub-series has zero
variance the coefficient is undefined and `none` is returned (never treated
as `r = 0`). -/
noncomputable def pearson (ps : List (ℝ × ℝ)) : Option ℝ :=
  if sxx ps = 0 ∨ syy ps = 0 then none
  else some (sxy ps / (Real.sqrt (sxx ps) * Real.sqrt (syy ps)))

/-- Modelled from the spec: the candidate correlation at lag `k`
(spec §4.2 steps 1-3): pair `driving[t]` with `response[t+k]` on the
intersection of defined indices, require at least 3 paired points, and skip
the lag (`none`) when the correlation is undefined. -/
noncomputable def corrAt (driving response : List ℝ) (k : ℕ) : Option ℝ :=
  if 3 ≤ (driving.zip (response.drop k)).length then
    pearson (driving.zip (response.drop k))
  else none

/-- Modelled from the spec: the list of candidate lags `k ∈ 0..max_lag_months`
together with their defined correlations, in increasing order of `k`
(spec §4.2). -/
noncomputable def lagCandidates (driving response : List ℝ) (maxLag : ℕ) :
    List (ℕ × ℝ) :=
  (List.range (maxLag + 1)).filterMap fun k =>
    (corrAt driving response k).map fun c => (k, c)

/-- Modelled from the spec: one step of the best-so-far fold of §4.2 step 4
and design note §9: a later candidate replaces the accumulator only when its
absolute correlation is strictly larger, so on ties the smaller lag wins. -/
noncomputable def betterStep (acc : Option (ℕ × ℝ)) (cand : ℕ × ℝ) :
    Option (ℕ × ℝ) :=
  match acc with
  | none => some cand
  | some best => if |cand.2| > |best.2| then some cand else some best

/-- Modelled from the spec: the lag search as a pure fold over the candidate
list (spec §4.2 step 4, §9 design note). -/
noncomputable def bestLag (l : List (ℕ × ℝ)) : Option (ℕ × ℝ) :=
  l.foldl betterStep none

/-- Modelled from the spec: the correlation strength classification table of
§4.2: `|r| ≥ 0.7 → "strong"`, `0.5 ≤ |r| < 0.7 → "moderate"`,
`|r| < 0.5 → "weak"`. -/
noncomputable def classifyStrength (r : ℝ) : String :=
  if 7 / 10 ≤ |r| then "strong"
  else if 1 / 2 ≤ |r| then "moderate"
  else "weak"

/-- Modelled from the spec: `compute_time_lag_correlation` of §6 with the
algorithm of §4.2 and the error conditions of §4.2/§8: an empty driving or
response series is a ValidationError; when no candidate lag has at least 3
paired points and a defined correlation, the result is a ComputationError
(insufficient overlapping data), not a defaulted neutral result. -/
noncomputable def compute_time_lag_correlation (driving response : List ℝ)
    (maxLag : ℕ) : Except AnalysisError LagCorrelationResult :=
  if driving = [] ∨ response = [] then .error .validationError
  else
    match bestLag (lagCandidates driving response maxLag) with
    | none => .error .computationError
    | some (k, c) =>
        .ok { optimal_lag_months := k
              correlation_coefficient := c
              correlation_strength := classifyStrength c
              aligned_series := driving.zip (response.drop k) }

/-- Correlation color classification of the frontend, embedded from
`frontend/src/components/TimeLagChart.tsx` lines 193-197: green for
`|r| > 0.7`, yellow for `|r| > 0.5`, red otherwise.  The component displays
the green/yellow/red color for the strong/moderate/weak class of the
coefficient it renders. -/
def correlationColor (correlation_coefficient : ℚ) : String :=
  if |correlation_coefficient| > 7 / 10 then "text-green-600"
  else if |correlation_coefficient| > 1 / 2 then "text-yellow-600"
  else "text-red-600"

/-- CO2GapData record of `frontend/src/components/CO2GapChartThin.tsx`
(lines 27-34); the date string is pass-through and not modelled. -/
structure CO2GapData where
  co2_ppm : ℚ
  theoretical_temp : ℚ
  actual_temp : ℚ
  unexplained_gap : ℚ
  gap_percentage : ℚ
deriving DecidableEq

/-- Summary statistics block of `CO2GapChartThin.tsx` (lines 174-179). -/
structure ThinSummary where
  avgGap : ℚ
  avgPercentage : ℚ
  maxGap : ℚ
  latestGap : ℚ
deriving DecidableEq

/-- Render outcome of the `CO2GapChartThin` component: one of the three
early-return views (lines 67-69) or the rendered chart with its summary
block. -/
inductive ThinView where
  | loadingView
  | errorView (msg : String)
  | noData
  | rendered (s : ThinSummary)
deriving DecidableEq

/-- Maximum of a list of rationals in the style of `Math.max(...xs)`; the
component only evaluates it on a non-empty list (after the length guard), so
the empty case is arbitrary. -/
def mathMax : List ℚ → ℚ
  | [] => 0
  | x :: xs => xs.foldl max x

/-- Render function of `CO2GapChartThin.tsx` (lines 67-69 guards and
lines 174-179 summary): loading and error views first, then the
`!gapData.length` guard returning the no-data view, and only past that guard
the summary statistics: average gap as the sum of `unexplained_gap` over the
length, average percentage likewise, max gap via `Math.max`, and latest gap
from index `gapData.length - 1`. -/
def renderCO2GapChartThin (loading : Bool) (error : Option String)
    (gapData : List CO2GapData) : ThinView :=
  if loading then .loadingView
  else
    match error with
    | some msg => .errorView msg
    | none =>
        if h : gapData.length = 0 then .noData
        else
          .rendered
            { avgGap := (gapData.map (fun d => d.unexplained_gap)).sum / gapData.length
              avgPercentage := (gapData.map (fun d => d.gap_percentage)).sum / gapData.length
              maxGap := mathMax (gapData.map (fun d => d.unexplained_gap))
              latestGap := (gapData.get ⟨gapData.length - 1,
                Nat.sub_lt (Nat.pos_of_ne_zero h) one_pos⟩).unexplained_gap }

section GapLemmas

/-- Unpacking a successful single-point gap computation. -/
theorem computeGapCore_ok {b cr s c t : ℝ} {g : GapResult}
    (h : computeGapCore b cr s c t = .ok g) :
    ¬ c ≤ 0 ∧
      g.co2_ppm = c ∧
      g.theoretical_temp = b + s * Real.logb 2 (c / cr) ∧
      g.actual_temp = t ∧
      g.unexplained_gap = t - g.theoretical_temp ∧
      g.gap_percentage = (if t - b = 0 then 0 else g.unexplained_gap / (t - b) * 100) ∧
      g.p_value = none ∧ g.confidence_interval = none := by
  by_cases hc : c ≤ 0
  · simp [computeGapCore, computeTheoreticalTemp, hc] at h
  · simp only [computeGapCore, computeTheoreticalTemp, hc, if_false] at h
    cases h
    simp [hc]

/-- Every element of a successful batch core list is a successful pointwise
computation on some input pair. -/
theorem computeGapList_mem {b cr s : ℝ} {ps : List (ℝ × ℝ)} {gs : List GapResult}
    (h : computeGapList b cr s ps = .ok gs) :
    ∀ g ∈ gs, ∃ c t, computeGapCore b cr s c t = .ok g := by
  induction ps generalizing gs with
  | nil =>
      simp only [computeGapList] at h
      cases h
      intro g hg
      simp at hg
  | cons p rest ih =>
      obtain ⟨c, t⟩ := p
      simp only [computeGapList] at h
      cases hcore : computeGapCore b cr s c t with
      | error e => rw [hcore] at h; cases h
      | ok g0 =>
          rw [hcore] at h
          cases hrest : computeGapList b cr s rest with
          | error e => rw [hrest] at h; cases h
          | ok gs0 =>
              rw [hrest] at h
              cases h
              intro g hg
              rcases List.mem_cons.mp hg with hg | hg
              · exact ⟨c, t, hg ▸ hcore⟩
              · exact ih hrest g hg

end GapLemmas

section PearsonLemmas

/-- List sums of mapped values as finite sums over indices. -/
theorem sum_map_get {α : Type} (l : List α) (f : α → ℝ) :
    (l.map f).sum = ∑ i : Fin l.length, f (l.get i) := by
  conv_lhs => rw [← List.ofFn_get l]
  rw [List.map_ofFn, List.sum_ofFn]
  rfl

/-- Centered sums of squares are nonnegative. -/
theorem sxx_nonneg (ps : List (ℝ × ℝ)) : 0 ≤ sxx ps := by
  apply List.sum_nonneg
  intro x hx
  obtain ⟨p, -, rfl⟩ := List.mem_map.mp hx
  exact sq_nonneg _

/-- Centered sums of squares are nonnegative. -/
theorem syy_nonneg (ps : List (ℝ × ℝ)) : 0 ≤ syy ps := by
  apply List.sum_nonneg
  intro x hx
  obtain ⟨p, -, rfl⟩ := List.mem_map.mp hx
  exact sq_nonneg _

/-- Cauchy-Schwarz for the centered sums. -/
theorem sxy_sq_le (ps : List (ℝ × ℝ)) : sxy ps ^ 2 ≤ sxx ps * syy ps := by
  rw [sxy, sxx, syy, sum_map_get, sum_map_get, sum_map_get]
  exact Finset.sum_mul_sq_le_sq_mul_sq Finset.univ _ _

/-- Whenever the Pearson coefficient is defined, its absolute value is at
most 1. -/
theorem pearson_abs_le_one {ps : List (ℝ × ℝ)} {r : ℝ}
    (h : pearson ps = some r) : |r| ≤ 1 := by
  unfold pearson at h
  by_cases h0 : sxx ps = 0 ∨ syy ps = 0
  · simp [h0] at h
  · simp only [h0, if_false] at h
    push_neg at h0
    have hxpos : 0 < sxx ps := lt_of_le_of_ne (sxx_nonneg ps) (Ne.symm h0.1)
    have hypos : 0 < syy ps := lt_of_le_of_ne (syy_nonneg ps) (Ne.symm h0.2)
    have hd : 0 < Real.sqrt (sxx ps) * Real.sqrt (syy ps) :=
      mul_pos (Real.sqrt_pos.mpr hxpos) (Real.sqrt_pos.mpr hypos)
    have hcs : |sxy ps| ≤ Real.sqrt (sxx ps) * Real.sqrt (syy ps) := by
      rw [← Real.sqrt_sq_eq_abs, ← Real.sqrt_mul hxpos.le]
      exact Real.sqrt_le_sqrt (sxy_sq_le ps)
    obtain rfl : _ = r := Option.some.inj h
    rw [abs_div, abs_of_pos hd]
    exact (div_le_one hd).mpr hcs

/-- Zipping a list with itself is the diagonal map. -/
theorem zip_self_eq_map (s : List ℝ) : s.zip s = s.map (fun a => (a, a)) := by
  induction s with
  | nil => rfl
  | cons a t ih => rw [List.zip_cons_cons, List.map_cons, ih]

/-- On the diagonal, the mean of the first components is the series mean. -/
theorem meanFst_zip_self (s : List ℝ) : meanFst (s.zip s) = sampleMean s := by
  simp [meanFst, zip_self_eq_map, List.map_map, sampleMean, Function.comp_def]

/-- On the diagonal, the mean of the second components is the series mean. -/
theorem meanSnd_zip_self (s : List ℝ) : meanSnd (s.zip s) = sampleMean s := by
  simp [meanSnd, zip_self_eq_map, List.map_map, sampleMean, Function.comp_def]

/-- On the diagonal, the centered sum of squares of the first components is
the single-series centered sum of squares. -/
theorem sxx_zip_self (s : List ℝ) : sxx (s.zip s) = sxxOf s := by
  rw [sxx, meanFst_zip_self, sxxOf, zip_self_eq_map, List.map_map]
  rfl

/-- On the diagonal, the centered sum of squares of the second components is
the single-series centered sum of squares. -/
theorem syy_zip_self (s : List ℝ) : syy (s.zip s) = sxxOf s := by
  rw [syy, meanSnd_zip_self, sxxOf, zip_self_eq_map, List.map_map]
  rfl

/-- On the diagonal, the centered cross-product sum is the single-series
centered sum of squares. -/
theorem sxy_zip_self (s : List ℝ) : sxy (s.zip s) = sxxOf s := by
  rw [sxy, meanFst_zip_self, meanSnd_zip_self, sxxOf, zip_self_eq_map,
    List.map_map]
  simp only [pow_two]
  rfl

/-- Pearson correlation of a series against itself is exactly 1 whenever the
series has nonzero variance. -/
theorem pearson_zip_self {s : List ℝ} (h : sxxOf s ≠ 0) :
    pearson (s.zip s) = some 1 := by
  have h0 : 0 ≤ sxxOf s := by
    apply List.sum_nonneg
    intro x hx
    obtain ⟨a, -, rfl⟩ := List.mem_map.mp hx
    exact sq_nonneg _
  have hpos : 0 < sxxOf s := lt_of_le_of_ne h0 (Ne.symm h)
  rw [pearson, sxx_zip_self, syy_zip_self, sxy_zip_self]
  rw [if_neg (by simp [h])]
  congr 1
  rw [Real.mul_self_sqrt hpos.le]
  exact div_self h

/-- A list of pairs with constant first components has vanishing `sxx`, hence
an undefined Pearson correlation. -/
theorem pearson_const_fst {ps : List (ℝ × ℝ)} {c : ℝ}
    (h : ∀ p ∈ ps, p.1 = c) : pearson ps = none := by
  have hxx : sxx ps = 0 := by
    cases ps with
    | nil => simp [sxx]
    | cons q t =>
        have hrep : (q :: t).map Prod.fst = List.replicate (q :: t).length c :=
          List.eq_replicate_iff.mpr
            ⟨by simp, fun b hb => by
              obtain ⟨p, hp, rfl⟩ := List.mem_map.mp hb
              exact h p hp⟩
        have hm : meanFst (q :: t) = c := by
          rw [meanFst, hrep, List.sum_replicate, nsmul_eq_mul]
          exact mul_div_cancel_left₀ c (Nat.cast_ne_zero.mpr (by simp))
        rw [sxx]
        apply List.sum_eq_zero
        intro x hx
        obtain ⟨p, hp, rfl⟩ := List.mem_map.mp hx
        rw [hm, h p hp]
        ring
  rw [pearson, if_pos (Or.inl hxx)]

end PearsonLemmas

section FoldLemmas

/-- A successful best-so-far fold returns either a list element or the
starting accumulator. -/
theorem foldl_betterStep_mem :
    ∀ (l : List (ℕ × ℝ)) (acc : Option (ℕ × ℝ)) (b : ℕ × ℝ),
      l.foldl betterStep acc = some b → b ∈ l ∨ acc = some b := by
  intro l
  induction l with
  | nil =>
      intro acc b h
      right
      exact h
  | cons q t ih =>
      intro acc b h
      rw [List.foldl_cons] at h
      rcases ih _ b h with hm | hacc
      · exact Or.inl (List.mem_cons_of_mem _ hm)
      · cases acc with
        | none =>
            left
            obtain rfl : q = b := Option.some.inj hacc
            exact List.mem_cons_self q t
        | some a =>
            by_cases hcmp : |q.2| > |a.2|
            · simp only [betterStep, hcmp, if_true] at hacc
              obtain rfl : q = b := Option.some.inj hacc
              exact Or.inl (List.mem_cons_self q t)
            · simp only [betterStep, hcmp, if_false] at hacc
              exact Or.inr hacc

/-- The best-so-far fold keeps its accumulator when no later candidate has
strictly larger absolute correlation. -/
theorem foldl_betterStep_keep {b : ℕ × ℝ} :
    ∀ (l : List (ℕ × ℝ)), (∀ q ∈ l, ¬ |q.2| > |b.2|) →
      l.foldl betterStep (some b) = some b := by
  intro l
  induction l with
  | nil => intro _; rfl
  | cons q t ih =>
      intro h
      rw [List.foldl_cons]
      have hq : ¬ |q.2| > |b.2| := h q (List.mem_cons_self q t)
      show (betterStep (some b) q |> fun a => t.foldl betterStep a) = some b
      simp only [betterStep, hq, if_false]
      exact ih fun p hp => h p (List.mem_cons_of_mem _ hp)

/-- Specification of the best-so-far fold on a list of candidates whose keys
appear in strictly increasing order, starting from an accumulator whose key
precedes every list key: the returned candidate has maximal absolute value,
and on ties its key is the smallest among the tied candidates. -/
theorem foldl_betterStep_argmax :
    ∀ (l : List (ℕ × ℝ)) (acc : Option (ℕ × ℝ)) (b : ℕ × ℝ),
      l.Pairwise (fun p q => p.1 < q.1) →
      (∀ a, acc = some a → ∀ q ∈ l, a.1 < q.1) →
      l.foldl betterStep acc = some b →
      (∀ q ∈ l, |q.2| ≤ |b.2| ∧ (|q.2| = |b.2| → b.1 ≤ q.1)) ∧
        (∀ a, acc = some a → |a.2| ≤ |b.2| ∧ (|a.2| = |b.2| → b.1 ≤ a.1)) := by
  intro l
  induction l with
  | nil =>
      intro acc b _ _ h
      refine ⟨fun q hq => absurd hq (List.not_mem_nil q), fun a ha => ?_⟩
      rw [List.foldl_nil, ha] at h
      obtain rfl : a = b := Option.some.inj h
      exact ⟨le_refl _, fun _ => le_refl _⟩
  | cons q t ih =>
      intro acc b hpw hlt h
      rw [List.foldl_cons] at h
      have hpw' : t.Pairwise (fun p q => p.1 < q.1) := List.Pairwise.of_cons hpw
      have hhead : ∀ p ∈ t, q.1 < p.1 := (List.pairwise_cons.mp hpw).1
      have hacc' : ∀ a, betterStep acc q = some a → ∀ p ∈ t, a.1 < p.1 := by
        intro a ha p hp
        cases acc with
        | none =>
            obtain rfl : q = a := Option.some.inj ha
            exact hhead p hp
        | some a0 =>
            by_cases hcmp : |q.2| > |a0.2|
            · simp only [betterStep, hcmp, if_true] at ha
              obtain rfl : q = a := Option.some.inj ha
              exact hhead p hp
            · simp only [betterStep, hcmp, if_false] at ha
              have hEq : a0 = a := Option.some.inj ha
              exact hEq ▸ lt_trans (hlt a0 rfl q (List.mem_cons_self q t))
                (hhead p hp)
      obtain ⟨ht, hacc⟩ := ih (betterStep acc q) b hpw' hacc' h
      have hq : |q.2| ≤ |b.2| ∧ (|q.2| = |b.2| → b.1 ≤ q.1) := by
        cases acc with
        | none => exact hacc q rfl
        | some a0 =>
            by_cases hcmp : |q.2| > |a0.2|
            · exact hacc q (by simp only [betterStep, hcmp, if_true])
            · have ha0 := hacc a0 (by simp only [betterStep, hcmp, if_false])
              push_neg at hcmp
              refine ⟨le_trans hcmp ha0.1, fun heq => ?_⟩
              have heq0 : |a0.2| = |b.2| := le_antisymm ha0.1 (heq ▸ hcmp)
              exact le_trans (ha0.2 heq0)
                (le_of_lt (hlt a0 rfl q (List.mem_cons_self q t)))
      refine ⟨fun p hp => ?_, fun a ha => ?_⟩
      · rcases List.mem_cons.mp hp with rfl | hp
        · exact hq
        · exact ht p hp
      · cases acc with
        | none => cases ha
        | some a0 =>
            have hEq : a0 = a := Option.some.inj ha
            subst hEq
            by_cases hcmp : |q.2| > |a0.2|
            · have hqd := hacc q (by simp only [betterStep, hcmp, if_true])
              refine ⟨le_trans (le_of_lt hcmp) hqd.1, fun heq => ?_⟩
              exact absurd (lt_of_lt_of_le hcmp hqd.1)
                (by rw [heq]; exact lt_irrefl _)
            · exact hacc a0 (by simp only [betterStep, hcmp, if_false])

end FoldLemmas

section CandidateLemmas

/-- Membership in the candidate list characterised by lag bound and defined
correlation. -/
theorem mem_lagCandidates {d r : List ℝ} {L : ℕ} {p : ℕ × ℝ} :
    p ∈ lagCandidates d r L ↔ p.1 ≤ L ∧ corrAt d r p.1 = some p.2 := by
  unfold lagCandidates
  rw [List.mem_filterMap]
  constructor
  · rintro ⟨k, hk, hmap⟩
    rw [Option.map_eq_some'] at hmap
    obtain ⟨c, hc, hpc⟩ := hmap
    rcases hpc with rfl
    exact ⟨Nat.lt_succ_iff.mp (List.mem_range.mp hk), hc⟩
  · rintro ⟨hk, hc⟩
    refine ⟨p.1, List.mem_range.mpr (Nat.lt_succ_iff.mpr hk), ?_⟩
    rw [hc]
    rfl

/-- A defined candidate correlation is a defined Pearson correlation of the
aligned pairs. -/
theorem corrAt_some {d r : List ℝ} {k : ℕ} {c : ℝ}
    (h : corrAt d r k = some c) : pearson (d.zip (r.drop k)) = some c := by
  unfold corrAt at h
  by_cases h3 : 3 ≤ (d.zip (r.drop k)).length
  · rwa [if_pos h3] at h
  · rw [if_neg h3] at h
    cases h

/-- Candidate lags appear in strictly increasing order. -/
theorem pairwise_lagCandidates (d r : List ℝ) (L : ℕ) :
    (lagCandidates d r L).Pairwise (fun p q => p.1 < q.1) := by
  refine List.Pairwise.filterMap _ ?_ (List.pairwise_lt_range (L + 1))
  rintro a b hlt p hp q hq
  rw [Option.mem_def, Option.map_eq_some'] at hp hq
  obtain ⟨c, -, rfl⟩ := hp
  obtain ⟨c', -, rfl⟩ := hq
  exact hlt

/-- Specification of a successful lag search over the candidate list: the
returned lag is within bounds, the coefficient is bounded by 1 in absolute
value, and the result dominates every defined candidate, with the smaller
lag returned on ties. -/
theorem bestLag_ok {d r : List ℝ} {L : ℕ} {k : ℕ} {c : ℝ}
    (h : bestLag (lagCandidates d r L) = some (k, c)) :
    k ≤ L ∧ |c| ≤ 1 ∧
      ∀ j, j ≤ L → ∀ cj, corrAt d r j = some cj →
        |cj| ≤ |c| ∧ (|cj| = |c| → k ≤ j) := by
  rcases foldl_betterStep_mem _ none _ h with hmem | habs
  · have hm := mem_lagCandidates.mp hmem
    have hb := pearson_abs_le_one (corrAt_some hm.2)
    have harg := foldl_betterStep_argmax _ none _ (pairwise_lagCandidates d r L)
      (fun a ha => by cases ha) h
    refine ⟨hm.1, hb, fun j hj cj hcj => ?_⟩
    exact harg.1 (j, cj) (mem_lagCandidates.mpr ⟨hj, hcj⟩)
  · cases habs

/-- A successful time-lag analysis is a successful lag search, and the result
fields are the search result together with the classification and the
aligned series at the optimal lag. -/
theorem compute_time_lag_ok {d r : List ℝ} {L : ℕ} {res : LagCorrelationResult}
    (h : compute_time_lag_correlation d r L = .ok res) :
    bestLag (lagCandidates d r L) =
        some (res.optimal_lag_months, res.correlation_coefficient) ∧
      res.correlation_strength = classifyStrength res.correlation_coefficient ∧
      res.aligned_series = d.zip (r.drop res.optimal_lag_months) := by
  unfold compute_time_lag_correlation at h
  by_cases he : d = [] ∨ r = []
  · rw [if_pos he] at h
    cases h
  · rw [if_neg he] at h
    cases hbl : bestLag (lagCandidates d r L) with
    | none =>
        rw [hbl] at h
        cases h
    | some p =>
        obtain ⟨k0, c0⟩ := p
        rw [hbl] at h
        cases h
        exact ⟨rfl, rfl, rfl⟩

end CandidateLemmas

section TimeLagBehaviour

/-- Analyzing a series with nonzero variance against itself succeeds with
optimal lag 0 and coefficient exactly 1. -/
theorem compute_time_lag_identical (s : List ℝ) (L : ℕ) (h3 : 3 ≤ s.length)
    (hv : sxxOf s ≠ 0) :
    compute_time_lag_correlation s s L =
      .ok { optimal_lag_months := 0
            correlation_coefficient := 1
            correlation_strength := classifyStrength 1
            aligned_series := s.zip s } := by
  have hne : s ≠ [] := by
    intro hnil
    rw [hnil] at h3
    simp at h3
  have hc0 : corrAt s s 0 = some 1 := by
    unfold corrAt
    rw [List.drop_zero, if_pos (by simpa using h3)]
    exact pearson_zip_self hv
  have hcand : lagCandidates s s L =
      (0, 1) :: (((List.range L).map (· + 1)).filterMap fun k =>
        (corrAt s s k).map fun c => (k, c)) := by
    unfold lagCandidates
    rw [List.range_succ_eq_map]
    simp [List.filterMap_cons, hc0]
  have htail : ∀ q ∈ ((List.range L).map (· + 1)).filterMap
      (fun k => (corrAt s s k).map fun c => (k, c)), ¬ |q.2| > |(1 : ℝ)| := by
    intro q hq
    have hq2 : q ∈ lagCandidates s s L := by
      rw [hcand]
      exact List.mem_cons_of_mem _ hq
    have hle := pearson_abs_le_one (corrAt_some (mem_lagCandidates.mp hq2).2)
    simp only [abs_one]
    exact not_lt.mpr hle
  have hbest : bestLag (lagCandidates s s L) = some (0, 1) := by
    rw [bestLag, hcand, List.foldl_cons]
    exact foldl_betterStep_keep _ htail
  unfold compute_time_lag_correlation
  rw [if_neg (by simp [hne]), hbest]
  rfl

/-- An empty driving or response series is rejected with a ValidationError. -/
theorem compute_time_lag_empty {d r : List ℝ} {L : ℕ} (h : d = [] ∨ r = []) :
    compute_time_lag_correlation d r L = .error .validationError := by
  unfold compute_time_lag_correlation
  rw [if_pos h]

/-- When no candidate lag yields a defined correlation over at least 3 paired
points, the analysis fails with a ComputationError. -/
theorem compute_time_lag_no_candidates {d r : List ℝ} {L : ℕ}
    (hd : d ≠ []) (hr : r ≠ []) (h : ∀ k, k ≤ L → corrAt d r k = none) :
    compute_time_lag_correlation d r L = .error .computationError := by
  have hcand : lagCandidates d r L = [] := by
    unfold lagCandidates
    apply List.filterMap_eq_nil_iff.mpr
    intro k hk
    rw [h k (Nat.lt_succ_iff.mp (List.mem_range.mp hk))]
    rfl
  unfold compute_time_lag_correlation
  rw [if_neg (by simp [hd, hr]), hcand]
  rfl

/-- A constant driving series has zero variance at every candidate lag, so
every candidate correlation is undefined. -/
theorem corrAt_const_fst (n : ℕ) (c : ℝ) (r : List ℝ) (k : ℕ) :
    corrAt (List.replicate n c) r k = none := by
  unfold corrAt
  by_cases h3 : 3 ≤ ((List.replicate n c).zip (r.drop k)).length
  · rw [if_pos h3]
    apply pearson_const_fst
    intro p hp
    exact List.eq_of_mem_replicate (List.of_mem_zip hp).1
  · rw [if_neg h3]

/-- With a nonempty constant driving series and a nonempty response series,
the analysis always fails with a ComputationError. -/
theorem compute_time_lag_const_driving (n : ℕ) (c : ℝ) (r : List ℝ) (L : ℕ)
    (hn : n ≠ 0) (hr : r ≠ []) :
    compute_time_lag_correlation (List.replicate n c) r L =
      .error .computationError :=
  compute_time_lag_no_candidates (by simp [hn]) hr
    (fun k _ => corrAt_const_fst n c r k)

end TimeLagBehaviour

section ConcreteEvaluations

/-- Doubled CO₂ relative to the reference gives log ratio 1. -/
theorem logb_two_of_double : Real.logb 2 ((560 : ℝ) / 280) = 1 := by
  rw [show (560 : ℝ) / 280 = 2 by norm_num]
  exact Real.logb_self_eq_one (by norm_num)

/-- Pointwise gap at the doubling point: theoretical 17, gap 0. -/
theorem core560 : computeGapCore 14 280 3 560 17 =
    .ok ⟨560, 17, 17, 0, 0, none, none⟩ := by
  unfold computeGapCore computeTheoreticalTemp
  rw [if_neg (by norm_num : ¬ (560 : ℝ) ≤ 0), logb_two_of_double]
  norm_num

/-- Pointwise gap at the reference point: theoretical 14, gap 0. -/
theorem core280 : computeGapCore 14 280 3 280 14 =
    .ok ⟨280, 14, 14, 0, 0, none, none⟩ := by
  have hlog : Real.logb 2 ((280 : ℝ) / 280) = 0 := by
    rw [show (280 : ℝ) / 280 = 1 by norm_num]
    exact Real.logb_one
  unfold computeGapCore computeTheoreticalTemp
  rw [if_neg (by norm_num : ¬ (280 : ℝ) ≤ 0), hlog]
  norm_num

/-- Single-point mode at the doubling point. -/
theorem single560 : compute_single_gap 560 17 14 280 3 =
    .ok ⟨560, 17, 17, 0, 0, none, none⟩ := core560

/-- Batch core list over the two-point example series. -/
theorem gaplist_ex : computeGapList 14 280 3 [(280, 14), (560, 17)] =
    .ok [⟨280, 14, 14, 0, 0, none, none⟩, ⟨560, 17, 17, 0, 0, none, none⟩] := by
  have h0 : computeGapList 14 280 3 [] = .ok [] := rfl
  simp only [computeGapList, core280, core560, h0]

/-- Batch mode over the two-point example series (with the zero maps standing
in for the Student-t parameters). -/
theorem batch_ex :
    compute_co2_gap (fun _ => 0) (fun _ _ => 0) 14 280 3 [280, 560] [14, 17] =
      .ok [⟨280, 14, 14, 0, 0, some 0, some (0, 0)⟩,
           ⟨560, 17, 17, 0, 0, some 0, some (0, 0)⟩] := by
  simp only [compute_co2_gap]
  rw [show ([280, 560] : List ℝ).zip [14, 17] =
    [((280 : ℝ), (14 : ℝ)), (560, 17)] from rfl]
  rw [if_neg (by norm_num), gaplist_ex]
  simp only [List.map_cons, List.map_nil]
  norm_num [sampleMean, sampleStd, Real.sqrt_zero]

/-- At lag 0, a series with nonzero variance correlates with itself with
coefficient exactly 1. -/
theorem corrAt_self_zero {s : List ℝ} (h3 : 3 ≤ s.length) (hv : sxxOf s ≠ 0) :
    corrAt s s 0 = some 1 := by
  unfold corrAt
  rw [List.drop_zero, if_pos (by simpa using h3)]
  exact pearson_zip_self hv

/-- The example series 1, 2, 3 has nonzero variance. -/
theorem sxxOf_example : sxxOf [1, 2, 3] ≠ 0 := by
  norm_num [sxxOf, sampleMean]

/-- A length-1 series admits no candidate lag with 3 paired points. -/
theorem corrAt_short (k : ℕ) : corrAt [1] [1] k = none := by
  unfold corrAt
  rw [if_neg]
  intro h3
  simp [List.length_zip] at h3
  omega

end ConcreteEvaluations

section BatchLemmas

/-- Unpacking a successful batch gap analysis: the pairing has at least two
points and every output is a pointwise result with the batch p-value and
confidence interval attached. -/
theorem compute_co2_gap_ok {tCrit : ℕ → ℝ} {pFromT : ℝ → ℕ → ℝ}
    {baseline co2ref sens : ℝ} {co2s temps : List ℝ} {l : List GapResult}
    (h : compute_co2_gap tCrit pFromT baseline co2ref sens co2s temps = .ok l) :
    2 ≤ (co2s.zip temps).length ∧
      ∃ results, computeGapList baseline co2ref sens (co2s.zip temps) = .ok results ∧
        ∃ p ci, l = results.map (fun g =>
          { g with p_value := some p, confidence_interval := some ci }) := by
  simp only [compute_co2_gap] at h
  by_cases hlen : (co2s.zip temps).length < 2
  · rw [if_pos hlen] at h
    cases h
  · rw [if_neg hlen] at h
    refine ⟨not_lt.mp hlen, ?_⟩
    cases hgl : computeGapList baseline co2ref sens (co2s.zip temps) with
    | error e =>
        rw [hgl] at h
        cases h
    | ok results =>
        rw [hgl] at h
        cases h
        exact ⟨results, rfl, _, _, rfl⟩

/-- Every element of a successful batch output satisfies the pointwise field
equations of the gap computation and carries a present p-value and confidence
interval. -/
theorem compute_co2_gap_mem {tCrit : ℕ → ℝ} {pFromT : ℝ → ℕ → ℝ}
    {baseline co2ref sens : ℝ} {co2s temps : List ℝ} {l : List GapResult}
    (h : compute_co2_gap tCrit pFromT baseline co2ref sens co2s temps = .ok l) :
    ∀ g ∈ l,
      g.unexplained_gap = g.actual_temp - g.theoretical_temp ∧
      g.gap_percentage = (if g.actual_temp - baseline = 0 then 0
        else g.unexplained_gap / (g.actual_temp - baseline) * 100) ∧
      g.p_value ≠ none ∧ g.confidence_interval ≠ none := by
  obtain ⟨-, results, hres, p, ci, rfl⟩ := compute_co2_gap_ok h
  intro g hg
  obtain ⟨g0, hg0, rfl⟩ := List.mem_map.mp hg
  obtain ⟨c, t, hcore⟩ := computeGapList_mem hres g0 hg0
  obtain ⟨-, -, -, hat, hgap, hpct, -, -⟩ := computeGapCore_ok hcore
  refine ⟨?_, ?_, by simp, by simp⟩
  · show g0.unexplained_gap = g0.actual_temp - g0.theoretical_temp
    rw [hgap, hat]
  · show g0.gap_percentage = _
    rw [hpct, hat]

end BatchLemmas

section RenderLemmas

/-- A rendered summary arises only past the three guards: not loading, no
error, and a non-empty series; its fields are the component's statistics. -/
theorem renderCO2GapChartThin_rendered {loading : Bool} {error : Option String}
    {gapData : List CO2GapData} {s : ThinSummary}
    (h : renderCO2GapChartThin loading error gapData = .rendered s) :
    loading = false ∧ error = none ∧ gapData ≠ [] ∧
      s.avgGap = (gapData.map (fun d => d.unexplained_gap)).sum / gapData.length ∧
      s.avgPercentage =
        (gapData.map (fun d => d.gap_percentage)).sum / gapData.length ∧
      s.maxGap = mathMax (gapData.map (fun d => d.unexplained_gap)) ∧
      ∀ hne : gapData ≠ [],
        s.latestGap = (gapData.getLast hne).unexplained_gap := by
  unfold renderCO2GapChartThin at h
  by_cases hl : loading
  · rw [if_pos hl] at h
    cases h
  · rw [if_neg hl] at h
    cases error with
    | some msg => cases h
    | none =>
        by_cases hz : gapData.length = 0
        · rw [dif_pos hz] at h
          cases h
        · rw [dif_neg hz] at h
          cases h
          have hne : gapData ≠ [] := fun hnil => hz (by rw [hnil]; rfl)
          refine ⟨by simpa using hl, rfl, hne, rfl, rfl, rfl, fun hne2 => ?_⟩
          show (gapData.get ⟨gapData.length - 1, _⟩).unexplained_gap = _
          rw [List.getLast_eq_getElem]
          rfl

end RenderLemmas

section Claims

/-- C1: for every GapResult produced by the CO₂-Gap Analyzer — batch
`compute_co2_gap` or single `compute_single_gap` — the field
`unexplained_gap` equals `actual_temp` minus `theoretical_temp` exactly, as
a signed value. -/
theorem claim_C1_unexplained_gap_invariant
    (tCrit : ℕ → ℝ) (pFromT : ℝ → ℕ → ℝ)
    (baseline co2ref sens co2 temp : ℝ) (co2s temps : List ℝ)
    (g : GapResult) (l : List GapResult) :
    (compute_single_gap co2 temp baseline co2ref sens = .ok g →
      g.unexplained_gap = g.actual_temp - g.theoretical_temp) ∧
    (compute_co2_gap tCrit pFromT baseline co2ref sens co2s temps = .ok l →
      ∀ g2 ∈ l, g2.unexplained_gap = g2.actual_temp - g2.theoretical_temp) := by
  constructor
  · intro h
    obtain ⟨-, -, -, hat, hgap, -, -, -⟩ := computeGapCore_ok h
    rw [hgap, hat]
  · intro h g2 hg2
    exact (compute_co2_gap_mem h g2 hg2).1

/-- Witness for C1 at the doubling point and at a two-point batch. -/
theorem claim_C1_witness :
    compute_single_gap 560 17 14 280 3 =
      .ok ⟨560, 17, 17, 0, 0, none, none⟩ ∧
    (GapResult.mk 560 17 17 0 0 none none).unexplained_gap =
      (GapResult.mk 560 17 17 0 0 none none).actual_temp -
        (GapResult.mk 560 17 17 0 0 none none).theoretical_temp ∧
    (GapResult.mk 280 14 14 0 0 (some 0) (some (0, 0))).unexplained_gap =
      (GapResult.mk 280 14 14 0 0 (some 0) (some (0, 0))).actual_temp -
        (GapResult.mk 280 14 14 0 0 (some 0) (some (0, 0))).theoretical_temp :=
  ⟨single560,
    (claim_C1_unexplained_gap_invariant (fun _ => 0) (fun _ _ => 0)
      14 280 3 560 17 [] [] ⟨560, 17, 17, 0, 0, none, none⟩ []).1 single560,
    (claim_C1_unexplained_gap_invariant (fun _ => 0) (fun _ _ => 0)
      14 280 3 560 17 [280, 560] [14, 17] ⟨0, 0, 0, 0, 0, none, none⟩ _).2
      batch_ex _ (List.mem_cons_self _ _)⟩

/-- C2: for every gap computation, letting total_warming be `actual_temp -
baseline_temp`, the field `gap_percentage` equals
`(unexplained_gap / total_warming) * 100` whenever total_warming is nonzero,
and equals 0 when total_warming is zero. -/
theorem claim_C2_gap_percentage
    (tCrit : ℕ → ℝ) (pFromT : ℝ → ℕ → ℝ)
    (baseline co2ref sens co2 temp : ℝ) (co2s temps : List ℝ)
    (g : GapResult) (l : List GapResult) :
    (compute_single_gap co2 temp baseline co2ref sens = .ok g →
      (temp - baseline ≠ 0 →
        g.gap_percentage = g.unexplained_gap / (temp - baseline) * 100) ∧
      (temp - baseline = 0 → g.gap_percentage = 0)) ∧
    (compute_co2_gap tCrit pFromT baseline co2ref sens co2s temps = .ok l →
      ∀ g2 ∈ l,
        (g2.actual_temp - baseline ≠ 0 →
          g2.gap_percentage =
            g2.unexplained_gap / (g2.actual_temp - baseline) * 100) ∧
        (g2.actual_temp - baseline = 0 → g2.gap_percentage = 0)) := by
  constructor
  · intro h
    obtain ⟨-, -, -, -, -, hpct, -, -⟩ := computeGapCore_ok h
    constructor
    · intro htw
      rw [hpct, if_neg htw]
    · intro htw
      rw [hpct, if_pos htw]
  · intro h g2 hg2
    have hpct := (compute_co2_gap_mem h g2 hg2).2.1
    constructor
    · intro htw
      rw [hpct, if_neg htw]
    · intro htw
      rw [hpct, if_pos htw]

/-- Witness for C2: nonzero total warming at the doubling point, zero total
warming at the reference point of the batch. -/
theorem claim_C2_witness :
    compute_single_gap 560 17 14 280 3 =
      .ok ⟨560, 17, 17, 0, 0, none, none⟩ ∧
    (GapResult.mk 560 17 17 0 0 none none).gap_percentage =
      (GapResult.mk 560 17 17 0 0 none none).unexplained_gap /
        (17 - 14) * 100 ∧
    (GapResult.mk 280 14 14 0 0 (some 0) (some (0, 0))).gap_percentage = 0 :=
  ⟨single560,
    ((claim_C2_gap_percentage (fun _ => 0) (fun _ _ => 0)
      14 280 3 560 17 [] [] ⟨560, 17, 17, 0, 0, none, none⟩ []).1
      single560).1 (by norm_num),
    ((claim_C2_gap_percentage (fun _ => 0) (fun _ _ => 0)
      14 280 3 560 17 [280, 560] [14, 17] ⟨0, 0, 0, 0, 0, none, none⟩ _).2
      batch_ex _ (List.mem_cons_self _ _)).2
      (by show (14 : ℝ) - 14 = 0; norm_num)⟩

/-- C3: the theoretical temperature at a doubling of CO₂ — co2_ppm 560,
baseline 14.0, C₀ 280, λ 3.0 — is exactly 17.0 (a doubling adds exactly λ). -/
theorem claim_C3_doubling_exact :
    computeTheoreticalTemp 560 14 280 3 = .ok 17 := by
  unfold computeTheoreticalTemp
  rw [if_neg (by norm_num : ¬ (560 : ℝ) ≤ 0), logb_two_of_double]
  norm_num

/-- C4: for co2_ppm strictly above the reference C₀ the theoretical
temperature strictly exceeds the baseline; the model is strictly increasing
in co2_ppm; and it errors for co2_ppm ≤ 0. -/
theorem claim_C4_monotonicity_domain (baseline C0 lam co2 a b : ℝ) :
    (0 < C0 → 0 < lam → C0 < co2 →
      ∃ th, computeTheoreticalTemp co2 baseline C0 lam = .ok th ∧
        baseline < th) ∧
    (0 < C0 → 0 < lam → 0 < a → a < b →
      ∃ ta tb, computeTheoreticalTemp a baseline C0 lam = .ok ta ∧
        computeTheoreticalTemp b baseline C0 lam = .ok tb ∧ ta < tb) ∧
    (co2 ≤ 0 →
      computeTheoreticalTemp co2 baseline C0 lam = .error .validationError) := by
  refine ⟨fun hC0 hlam hgt => ?_, fun hC0 hlam ha hab => ?_, fun hle => ?_⟩
  · have hpos : 0 < co2 := lt_trans hC0 hgt
    refine ⟨baseline + lam * Real.logb 2 (co2 / C0), ?_, ?_⟩
    · unfold computeTheoreticalTemp
      rw [if_neg (not_le.mpr hpos)]
    · exact lt_add_of_pos_right _
        (mul_pos hlam (Real.logb_pos (by norm_num) ((one_lt_div hC0).mpr hgt)))
  · have hb : 0 < b := lt_trans ha hab
    refine ⟨baseline + lam * Real.logb 2 (a / C0),
      baseline + lam * Real.logb 2 (b / C0), ?_, ?_, ?_⟩
    · unfold computeTheoreticalTemp
      rw [if_neg (not_le.mpr ha)]
    · unfold computeTheoreticalTemp
      rw [if_neg (not_le.mpr hb)]
    · have hlog : Real.logb 2 (a / C0) < Real.logb 2 (b / C0) :=
        Real.logb_lt_logb (by norm_num) (div_pos ha hC0)
          ((div_lt_div_iff_of_pos_right hC0).mpr hab)
      exact add_lt_add_left (mul_lt_mul_of_pos_left hlog hlam) baseline
  · unfold computeTheoreticalTemp
    rw [if_pos hle]

/-- Witness for C4 at concrete parameters. -/
theorem claim_C4_witness :
    computeTheoreticalTemp 400 14 280 3 =
      .ok (14 + 3 * Real.logb 2 (400 / 280)) ∧
    (14 : ℝ) < 14 + 3 * Real.logb 2 (400 / 280) ∧
    computeTheoreticalTemp 280 14 280 3 =
      .ok (14 + 3 * Real.logb 2 (280 / 280)) ∧
    computeTheoreticalTemp 560 14 280 3 =
      .ok (14 + 3 * Real.logb 2 (560 / 280)) ∧
    (14 : ℝ) + 3 * Real.logb 2 (280 / 280) <
      14 + 3 * Real.logb 2 (560 / 280) ∧
    computeTheoreticalTemp (-1) 14 280 3 = .error .validationError := by
  have heqA : computeTheoreticalTemp 400 14 280 3 =
      .ok (14 + 3 * Real.logb 2 (400 / 280)) := by
    unfold computeTheoreticalTemp
    rw [if_neg (by norm_num : ¬ (400 : ℝ) ≤ 0)]
  have heqB : computeTheoreticalTemp 280 14 280 3 =
      .ok (14 + 3 * Real.logb 2 (280 / 280)) := by
    unfold computeTheoreticalTemp
    rw [if_neg (by norm_num : ¬ (280 : ℝ) ≤ 0)]
  have heqC : computeTheoreticalTemp 560 14 280 3 =
      .ok (14 + 3 * Real.logb 2 (560 / 280)) := by
    unfold computeTheoreticalTemp
    rw [if_neg (by norm_num : ¬ (560 : ℝ) ≤ 0)]
  obtain ⟨th, heq1, hlt1⟩ :=
    (claim_C4_monotonicity_domain 14 280 3 400 280 560).1
      (by norm_num) (by norm_num) (by norm_num)
  obtain ⟨ta, tb, heq2, heq3, hlt2⟩ :=
    (claim_C4_monotonicity_domain 14 280 3 400 280 560).2.1
      (by norm_num) (by norm_num) (by norm_num) (by norm_num)
  have e1 : th = 14 + 3 * Real.logb 2 ((400 : ℝ) / 280) :=
    Except.ok.inj (heq1.symm.trans heqA)
  have e2 : ta = 14 + 3 * Real.logb 2 ((280 : ℝ) / 280) :=
    Except.ok.inj (heq2.symm.trans heqB)
  have e3 : tb = 14 + 3 * Real.logb 2 ((560 : ℝ) / 280) :=
    Except.ok.inj (heq3.symm.trans heqC)
  exact ⟨heqA, e1 ▸ hlt1, heqB, heqC, e2 ▸ e3 ▸ hlt2,
    (claim_C4_monotonicity_domain 14 280 3 (-1) 280 560).2.2 (by norm_num)⟩

end Claims

/-- C5 counterexample: the specification classification table places the
boundary values in the higher class (`classifyStrength`), but the
classification implemented in the repository, the `correlationColor` mapping
of `TimeLagChart.tsx` with green/yellow/red for strong/moderate/weak, uses
strict comparisons: at `|r| = 0.7` it yields the moderate-class color, not
the strong-class color, and at `|r| = 0.5` the weak-class color. -/
theorem claim_C5_counterexample :
    classifyStrength (7 / 10 : ℝ) = "strong" ∧
    correlationColor (7 / 10) = "text-yellow-600" ∧
    correlationColor (7 / 10) ≠ "text-green-600" ∧
    classifyStrength (1 / 2 : ℝ) = "moderate" ∧
    correlationColor (1 / 2) = "text-red-600" := by
  have h7 : |(7 / 10 : ℝ)| = 7 / 10 := abs_of_pos (by norm_num)
  have h5 : |(1 / 2 : ℝ)| = 1 / 2 := abs_of_pos (by norm_num)
  have habs7 : |(7 / 10 : ℚ)| = 7 / 10 := abs_of_pos (by norm_num)
  have habs5 : |(1 / 2 : ℚ)| = 1 / 2 := abs_of_pos (by norm_num)
  have hy : correlationColor (7 / 10) = "text-yellow-600" := by
    unfold correlationColor
    rw [habs7, if_neg (by norm_num), if_pos (by norm_num)]
  have hred : correlationColor (1 / 2) = "text-red-600" := by
    unfold correlationColor
    rw [habs5, if_neg (by norm_num), if_neg (by norm_num)]
  refine ⟨?_, hy, ?_, ?_, hred⟩
  · unfold classifyStrength
    rw [h7, if_pos le_rfl]
  · rw [hy]
    decide
  · unfold classifyStrength
    rw [h5, if_neg (by norm_num), if_pos le_rfl]

/-- C5 (amended): the frontend correlation strength classification
(`correlationColor` of `TimeLagChart.tsx`) maps `|r| > 0.7` to the strong
class (green), `0.5 < |r| ≤ 0.7` to the moderate class (yellow), and
`|r| ≤ 0.5` to the weak class (red): boundary values fall in the lower
class. -/
theorem claim_C5_strict_thresholds (r : ℚ) :
    (7 / 10 < |r| → correlationColor r = "text-green-600") ∧
    (1 / 2 < |r| → |r| ≤ 7 / 10 → correlationColor r = "text-yellow-600") ∧
    (|r| ≤ 1 / 2 → correlationColor r = "text-red-600") := by
  unfold correlationColor
  refine ⟨fun h => if_pos h, fun h1 h2 => ?_, fun h => ?_⟩
  · rw [if_neg (not_lt.mpr h2), if_pos h1]
  · rw [if_neg (not_lt.mpr (le_trans h (by norm_num))), if_neg (not_lt.mpr h)]

/-- Witness for the amended C5 on one representative of each class. -/
theorem claim_C5_witness :
    correlationColor (4 / 5) = "text-green-600" ∧
    correlationColor (3 / 5) = "text-yellow-600" ∧
    correlationColor (2 / 5) = "text-red-600" :=
  ⟨(claim_C5_strict_thresholds (4 / 5)).1
      (by rw [abs_of_pos (by norm_num : (0 : ℚ) < 4 / 5)]; norm_num),
    (claim_C5_strict_thresholds (3 / 5)).2.1
      (by rw [abs_of_pos (by norm_num : (0 : ℚ) < 3 / 5)]; norm_num)
      (by rw [abs_of_pos (by norm_num : (0 : ℚ) < 3 / 5)]; norm_num),
    (claim_C5_strict_thresholds (2 / 5)).2.2
      (by rw [abs_of_pos (by norm_num : (0 : ℚ) < 2 / 5)]; norm_num)⟩

/-- C6: every successful result of `compute_time_lag_correlation` has
`optimal_lag_months` in `[0, max_lag_months]` and `correlation_coefficient`
in `[-1, 1]`; in particular, for two identical input series (with at least 3
points and nonzero variance, so that a correlation is defined at all) the
optimal lag 0 yields coefficient exactly 1. -/
theorem claim_C6_result_bounds (d r : List ℝ) (L : ℕ)
    (res : LagCorrelationResult) (s : List ℝ) :
    (compute_time_lag_correlation d r L = .ok res →
      res.optimal_lag_months ≤ L ∧
      -1 ≤ res.correlation_coefficient ∧ res.correlation_coefficient ≤ 1) ∧
    (3 ≤ s.length → sxxOf s ≠ 0 →
      ∃ res2, compute_time_lag_correlation s s L = .ok res2 ∧
        res2.optimal_lag_months = 0 ∧ res2.correlation_coefficient = 1) := by
  constructor
  · intro h
    obtain ⟨hbl, -, -⟩ := compute_time_lag_ok h
    obtain ⟨hk, hc, -⟩ := bestLag_ok hbl
    exact ⟨hk, (abs_le.mp hc).1, (abs_le.mp hc).2⟩
  · intro h3 hv
    exact ⟨_, compute_time_lag_identical s L h3 hv, rfl, rfl⟩

/-- Witness for C6 on the identical series 1, 2, 3. -/
theorem claim_C6_witness :
    compute_time_lag_correlation [1, 2, 3] [1, 2, 3] 5 =
      .ok ⟨0, 1, classifyStrength 1, [(1, 1), (2, 2), (3, 3)]⟩ ∧
    (LagCorrelationResult.mk 0 1 (classifyStrength 1)
      [(1, 1), (2, 2), (3, 3)]).optimal_lag_months ≤ 5 ∧
    -1 ≤ (LagCorrelationResult.mk 0 1 (classifyStrength 1)
      [(1, 1), (2, 2), (3, 3)]).correlation_coefficient ∧
    (LagCorrelationResult.mk 0 1 (classifyStrength 1)
      [(1, 1), (2, 2), (3, 3)]).correlation_coefficient ≤ 1 ∧
    (LagCorrelationResult.mk 0 1 (classifyStrength 1)
      [(1, 1), (2, 2), (3, 3)]).optimal_lag_months = 0 ∧
    (LagCorrelationResult.mk 0 1 (classifyStrength 1)
      [(1, 1), (2, 2), (3, 3)]).correlation_coefficient = 1 := by
  have hok : compute_time_lag_correlation [1, 2, 3] [1, 2, 3] 5 =
      .ok ⟨0, 1, classifyStrength 1, [(1, 1), (2, 2), (3, 3)]⟩ :=
    compute_time_lag_identical [1, 2, 3] 5 (by norm_num) sxxOf_example
  have hb := (claim_C6_result_bounds [1, 2, 3] [1, 2, 3] 5
    ⟨0, 1, classifyStrength 1, [(1, 1), (2, 2), (3, 3)]⟩ [1, 2, 3]).1 hok
  obtain ⟨res2, hok2, e0, e1⟩ := (claim_C6_result_bounds [1, 2, 3] [1, 2, 3] 5
    ⟨0, 1, classifyStrength 1, [(1, 1), (2, 2), (3, 3)]⟩ [1, 2, 3]).2
    (by norm_num) sxxOf_example
  have hres : res2 = ⟨0, 1, classifyStrength 1, [(1, 1), (2, 2), (3, 3)]⟩ :=
    Except.ok.inj (hok2.symm.trans hok)
  exact ⟨hok, hb.1, hb.2.1, hb.2.2, hres ▸ e0, hres ▸ e1⟩

/-- C7: a successful lag search returns a lag whose absolute correlation
dominates every candidate lag with a defined correlation in
`0..max_lag_months`, and on ties in absolute value the returned lag is the
smaller one. -/
theorem claim_C7_argmax_tiebreak (d r : List ℝ) (L : ℕ)
    (res : LagCorrelationResult)
    (h : compute_time_lag_correlation d r L = .ok res) :
    ∀ k, k ≤ L → ∀ c, corrAt d r k = some c →
      |c| ≤ |res.correlation_coefficient| ∧
        (|c| = |res.correlation_coefficient| → res.optimal_lag_months ≤ k) := by
  obtain ⟨hbl, -, -⟩ := compute_time_lag_ok h
  exact (bestLag_ok hbl).2.2

/-- Witness for C7 on the identical series 1, 2, 3 at candidate lag 0. -/
theorem claim_C7_witness :
    compute_time_lag_correlation [1, 2, 3] [1, 2, 3] 5 =
      .ok ⟨0, 1, classifyStrength 1, [(1, 1), (2, 2), (3, 3)]⟩ ∧
    |(1 : ℝ)| ≤ |(LagCorrelationResult.mk 0 1 (classifyStrength 1)
      [(1, 1), (2, 2), (3, 3)]).correlation_coefficient| ∧
    (LagCorrelationResult.mk 0 1 (classifyStrength 1)
      [(1, 1), (2, 2), (3, 3)]).optimal_lag_months ≤ 0 := by
  have hok : compute_time_lag_correlation [1, 2, 3] [1, 2, 3] 5 =
      .ok ⟨0, 1, classifyStrength 1, [(1, 1), (2, 2), (3, 3)]⟩ :=
    compute_time_lag_identical [1, 2, 3] 5 (by norm_num) sxxOf_example
  have hd := claim_C7_argmax_tiebreak [1, 2, 3] [1, 2, 3] 5 _ hok 0
    (by norm_num) 1 (corrAt_self_zero (by norm_num) sxxOf_example)
  exact ⟨hok, hd.1, hd.2 rfl⟩

/-- C8: an empty driving or response series raises ValidationError; when no
candidate lag has a defined correlation over at least 3 paired points —
in particular for a constant (zero-variance) driving series — the analyzer
raises ComputationError rather than defaulting to a neutral result. -/
theorem claim_C8_error_conditions (d r rs : List ℝ) (L M : ℕ)
    (n : ℕ) (c : ℝ) :
    ((d = [] ∨ r = []) →
      compute_time_lag_correlation d r L = .error .validationError) ∧
    (d ≠ [] → r ≠ [] → (∀ k, k ≤ L → corrAt d r k = none) →
      compute_time_lag_correlation d r L = .error .computationError) ∧
    (n ≠ 0 → rs ≠ [] →
      compute_time_lag_correlation (List.replicate n c) rs M =
        .error .computationError) :=
  ⟨compute_time_lag_empty,
    fun hd hr h => compute_time_lag_no_candidates hd hr h,
    fun hn hr => compute_time_lag_const_driving n c rs M hn hr⟩

/-- Witness for C8: empty driving series, a too-short pair of series, and a
constant driving series. -/
theorem claim_C8_witness :
    compute_time_lag_correlation ([] : List ℝ) [1] 0 =
      .error .validationError ∧
    compute_time_lag_correlation [1] [1] 0 = .error .computationError ∧
    compute_time_lag_correlation (List.replicate 3 (5 : ℝ)) [1, 2, 3] 2 =
      .error .computationError :=
  ⟨(claim_C8_error_conditions [] [1] [1] 0 0 3 5).1 (Or.inl rfl),
    (claim_C8_error_conditions [1] [1] [1] 0 0 3 5).2.1 (by simp) (by simp)
      (fun k _ => corrAt_short k),
    (claim_C8_error_conditions [1] [1] [1, 2, 3] 0 2 3 5).2.2
      (by norm_num) (by simp)⟩

/-- C9: single-point gap calculations report `p_value` and
`confidence_interval` as absent, never as fabricated values; batch mode
succeeds only over series of length at least 2 and then attaches both. -/
theorem claim_C9_pvalue_ci (tCrit : ℕ → ℝ) (pFromT : ℝ → ℕ → ℝ)
    (baseline co2ref sens co2 temp : ℝ) (co2s temps : List ℝ)
    (g : GapResult) (l : List GapResult) :
    (compute_single_gap co2 temp baseline co2ref sens = .ok g →
      g.p_value = none ∧ g.confidence_interval = none) ∧
    (compute_co2_gap tCrit pFromT baseline co2ref sens co2s temps = .ok l →
      (2 ≤ co2s.length ∧ 2 ≤ temps.length) ∧
      ∀ g2 ∈ l, g2.p_value ≠ none ∧ g2.confidence_interval ≠ none) := by
  constructor
  · intro h
    obtain ⟨-, -, -, -, -, -, hp, hci⟩ := computeGapCore_ok h
    exact ⟨hp, hci⟩
  · intro h
    refine ⟨?_, fun g2 hg2 => (compute_co2_gap_mem h g2 hg2).2.2⟩
    have hlen := (compute_co2_gap_ok h).1
    rw [List.length_zip] at hlen
    exact ⟨le_trans hlen (min_le_left _ _), le_trans hlen (min_le_right _ _)⟩

/-- Witness for C9 at the doubling point and at a two-point batch. -/
theorem claim_C9_witness :
    compute_single_gap 560 17 14 280 3 =
      .ok ⟨560, 17, 17, 0, 0, none, none⟩ ∧
    (GapResult.mk 560 17 17 0 0 none none).p_value = none ∧
    (GapResult.mk 560 17 17 0 0 none none).confidence_interval = none ∧
    (GapResult.mk 280 14 14 0 0 (some 0) (some (0, 0))).p_value ≠ none ∧
    (GapResult.mk 280 14 14 0 0 (some 0)
      (some (0, 0))).confidence_interval ≠ none := by
  have hs := (claim_C9_pvalue_ci (fun _ => 0) (fun _ _ => 0) 14 280 3 560 17
    [] [] ⟨560, 17, 17, 0, 0, none, none⟩ []).1 single560
  have hb := ((claim_C9_pvalue_ci (fun _ => 0) (fun _ _ => 0) 14 280 3 560 17
    [280, 560] [14, 17] ⟨0, 0, 0, 0, 0, none, none⟩ _).2 batch_ex).2 _
    (List.mem_cons_self _ _)
  exact ⟨single560, hs.1, hs.2, hb.1, hb.2⟩

/-- C10: in the `CO2GapChartThin` component the summary statistics are
computed only past the empty-series guard (which returns the no-data view),
so every rendered summary has a non-empty series, a division by a positive
length, and the index `gapData.length - 1` in bounds, with the summary
fields equal to the component's statistics. -/
theorem claim_C10_summary_guard (loading : Bool) (error : Option String)
    (gapData : List CO2GapData) (s : ThinSummary) :
    (loading = false → error = none → gapData = [] →
      renderCO2GapChartThin loading error gapData = .noData) ∧
    (renderCO2GapChartThin loading error gapData = .rendered s →
      gapData ≠ [] ∧ 0 < gapData.length ∧
      gapData.length - 1 < gapData.length ∧
      s.avgGap = (gapData.map (fun d => d.unexplained_gap)).sum / gapData.length ∧
      s.avgPercentage =
        (gapData.map (fun d => d.gap_percentage)).sum / gapData.length ∧
      s.maxGap = mathMax (gapData.map (fun d => d.unexplained_gap)) ∧
      ∀ hne : gapData ≠ [],
        s.latestGap = (gapData.getLast hne).unexplained_gap) := by
  constructor
  · rintro rfl rfl rfl
    rfl
  · intro h
    obtain ⟨-, -, hne, h1, h2, h3, h4⟩ := renderCO2GapChartThin_rendered h
    exact ⟨hne, List.length_pos.mpr hne,
      Nat.sub_lt (List.length_pos.mpr hne) one_pos, h1, h2, h3, h4⟩

/-- Witness for C10 on an empty and a one-point series. -/
theorem claim_C10_witness :
    renderCO2GapChartThin false none ([] : List CO2GapData) = .noData ∧
    renderCO2GapChartThin false none [⟨420, 15, 16, 1, 50⟩] =
      .rendered ⟨1, 50, 1, 1⟩ ∧
    (ThinSummary.mk 1 50 1 1).avgGap =
      (([⟨420, 15, 16, 1, 50⟩] : List CO2GapData).map
        (fun d => d.unexplained_gap)).sum /
        ([⟨420, 15, 16, 1, 50⟩] : List CO2GapData).length ∧
    (ThinSummary.mk 1 50 1 1).latestGap =
      (([⟨420, 15, 16, 1, 50⟩] : List CO2GapData).getLast
        (List.cons_ne_nil _ _)).unexplained_gap := by
  have h : renderCO2GapChartThin false none [⟨420, 15, 16, 1, 50⟩] =
      .rendered ⟨1, 50, 1, 1⟩ := by
    unfold renderCO2GapChartThin
    rw [if_neg (by simp)]
    show (if h : _ then _ else _) = _
    rw [dif_neg (by simp)]
    simp [mathMax]
  obtain ⟨-, -, -, h1, -, -, h4⟩ :=
    (claim_C10_summary_guard false none [⟨420, 15, 16, 1, 50⟩]
      ⟨1, 50, 1, 1⟩).2 h
  exact ⟨(claim_C10_summary_guard false none [] ⟨1, 50, 1, 1⟩).1 rfl rfl rfl,
    h, h1, h4 (List.cons_ne_nil _ _)⟩
